import Mathlib

set_option maxHeartbeats 1000000

/-!
Shallow embedding of `tiatoolbox/models/dataset/classification.py`.

The Python module defines an abstract patch dataset (`__ABC_Dataset`) with
`load_img`, `set_preproc_func`, `__len__` and `__getitem__`, plus two concrete
constructors: `PatchDataset.__init__` (validating a list of images / list of
paths / single 4D array) and `KatherPatchDataset.__init__` (fixed eight-category
directory layout).

Modelling choices:
  * numpy arrays are `NDArray`: a shape, a dtype classification, and a
    row-major flattened integer payload;
  * the filesystem is a partial map from path strings to file contents, where a
    content records which decoder (np.load vs imread) can interpret it;
  * Python exceptions are `PyError` values carried in `Except`;
  * Python indexing (lists and numpy axis 0) wraps negative indices by adding
    the length and raises IndexError out of range, which `pyIndex`/`ndIndex`
    reproduce.
-/

/-- Dtype classification as tested by np.issubdtype(dtype, np.number). -/
inductive Dtype
  | numeric
  | nonNumeric
deriving DecidableEq, Repr

/-- A numpy ndarray: shape, dtype, and a row-major flattened payload. -/
structure NDArray where
  shape : List Nat
  dtype : Dtype
  data : List Int
deriving DecidableEq, Repr

/-- Python exceptions raised by the module or by its library calls. -/
inductive PyError
  | valueError (msg : String)
  | indexError
  | typeError
  | fileNotFoundError
deriving DecidableEq, Repr

/-- Content of a file on disk: an array readable by np.load, or an image
decodable by imread. -/
inductive FileContent
  | npyData (a : NDArray)
  | imgData (a : NDArray)
deriving DecidableEq, Repr

/-- The filesystem: a partial map from paths to file contents; `none` means
the path does not exist (os.path.exists is false). -/
def FS : Type := String → Option FileContent

/-- Model of np.load: succeeds only on an existing npy-format file. -/
def np_load (fs : FS) (p : String) : Except PyError NDArray :=
  match fs p with
  | some (.npyData a) => .ok a
  | some (.imgData _) => .error (.valueError "Failed to interpret file as a pickle")
  | none => .error .fileNotFoundError

/-- Model of tiatoolbox.utils.misc.imread: succeeds only on an existing
decodable image file. -/
def imread (fs : FS) (p : String) : Except PyError NDArray :=
  match fs p with
  | some (.imgData a) => .ok a
  | some (.npyData _) => .error (.valueError "Could not decode image")
  | none => .error .fileNotFoundError

/-- Index of the last occurrence of a character in a character list. -/
def lastIdxOf (c : Char) (cs : List Char) : Option Nat :=
  ((cs.enum.filter (fun p => p.2 == c)).map Prod.fst).getLast?

/-- Model of pathlib.PurePath.name: the final path component. -/
def pyName (p : String) : List Char :=
  match lastIdxOf '/' p.toList with
  | none => p.toList
  | some i => p.toList.drop (i + 1)

/-- Model of pathlib.PurePath.suffix: the extension of the final component,
nonempty exactly when the last dot sits strictly inside the name. -/
def pySuffix (p : String) : String :=
  match lastIdxOf '.' (pyName p) with
  | none => ""
  | some i => if 0 < i ∧ i + 1 < (pyName p).length then String.mk ((pyName p).drop i) else ""

/-- Embedding of __ABC_Dataset.load_img: dispatch on the path suffix, with
np.load for ".npy", imread for the five recognized image extensions, and a
ValueError otherwise. -/
def load_img (fs : FS) (path : String) : Except PyError NDArray :=
  if pySuffix path = ".npy" then
    np_load fs path
  else if pySuffix path = ".jpg" ∨ pySuffix path = ".jpeg" ∨ pySuffix path = ".tif"
      ∨ pySuffix path = ".tiff" ∨ pySuffix path = ".png" then
    imread fs path
  else
    .error (.valueError ("Can not load data of `" ++ pySuffix path ++ "`"))

/-- A label value: an integer label or the np.nan sentinel synthesized when no
label list is supplied. -/
inductive Label
  | val (n : Int)
  | nan
deriving DecidableEq, Repr

/-- An element of a Python img_list: a path string, an in-memory array, or a
value of any other type. -/
inductive ImgElem
  | path (p : String)
  | arr (a : NDArray)
  | other
deriving DecidableEq, Repr

/-- The img_list storage held by a dataset instance: a Python list of elements
or a single numpy array. -/
inductive Stored
  | pyList (xs : List ImgElem)
  | ndarr (a : NDArray)
deriving Repr

/-- State of a dataset instance after construction. -/
structure Dataset where
  img_list : Stored
  label_list : List Label
  data_is_npy_alike : Bool
  preproc_func : NDArray → NDArray
  return_labels : Bool

/-- Result of __getitem__: the patch alone, or the patch with its label. -/
inductive GetResult
  | single (patch : NDArray)
  | withLabel (patch : NDArray) (label : Label)
deriving DecidableEq, Repr

/-- Python index arithmetic: a negative index counts from the end. -/
def pyWrap (len : Nat) (i : Int) : Int :=
  if i < 0 then i + len else i

/-- Python list indexing: wraps negative indices, IndexError out of range. -/
def pyIndex {α : Type} (xs : List α) (i : Int) : Except PyError α :=
  if h : 0 ≤ pyWrap xs.length i ∧ pyWrap xs.length i < (xs.length : Int) then
    .ok (xs.get ⟨(pyWrap xs.length i).toNat, by omega⟩)
  else
    .error .indexError

/-- Numpy indexing along axis 0: wraps negative indices, slices off the leading
axis, IndexError out of range (or on a 0-d array). -/
def ndIndex (a : NDArray) (i : Int) : Except PyError NDArray :=
  match a.shape with
  | [] => .error .indexError
  | n :: rest =>
    if 0 ≤ pyWrap n i ∧ pyWrap n i < (n : Int) then
      .ok ⟨rest, a.dtype, (a.data.drop ((pyWrap n i).toNat * rest.prod)).take rest.prod⟩
    else
      .error .indexError

/-- The first half of __ABC_Dataset.__getitem__: fetch img_list[idx], and when
the dataset is not npy-alike decode it with load_img. Elements whose runtime
type does not fit the mode raise a TypeError, as pathlib.Path would on an
ndarray argument. -/
def raw_sample (fs : FS) (ds : Dataset) (idx : Int) : Except PyError NDArray := do
  let patch ←
    match ds.img_list with
    | .pyList xs => pyIndex xs idx
    | .ndarr a => do
      let s ← ndIndex a idx
      pure (ImgElem.arr s)
  if ds.data_is_npy_alike then
    match patch with
    | .arr a => pure a
    | _ => Except.error .typeError
  else
    match patch with
    | .path p => load_img fs p
    | _ => Except.error .typeError

/-- Embedding of __ABC_Dataset.__getitem__: resolve the raw patch, apply the
preprocessing function, and pair with label_list[idx] when return_labels. -/
def getitem (fs : FS) (ds : Dataset) (idx : Int) : Except PyError GetResult := do
  let patch ← raw_sample fs ds idx
  let patch := ds.preproc_func patch
  if ds.return_labels then do
    let lab ← pyIndex ds.label_list idx
    pure (GetResult.withLabel patch lab)
  else
    pure (GetResult.single patch)

/-- Embedding of __ABC_Dataset.set_preproc_func: install func, or the identity
when func is None. -/
def set_preproc_func (ds : Dataset) (func : Option (NDArray → NDArray)) : Dataset :=
  { ds with preproc_func := match func with | some f => f | none => fun x => x }

/-- Embedding of __ABC_Dataset.__len__: len(img_list); len of a numpy array is
its leading dimension (TypeError on a 0-d array). -/
def dslen (ds : Dataset) : Except PyError Nat :=
  match ds.img_list with
  | .pyList xs => .ok xs.length
  | .ndarr a =>
    match a.shape with
    | [] => .error .typeError
    | n :: _ => .ok n

/-- The img_list argument accepted by PatchDataset.__init__: a Python list, a
numpy array, or a value of any other type. -/
inductive PyInput
  | list (xs : List ImgElem)
  | ndarray (a : NDArray)
  | other
deriving Repr

/-- Sequential effectful map over a list, as a Python list comprehension
evaluates: stops at the first raised exception. -/
def mapExcept {α β : Type} (f : α → Except PyError β) : List α → Except PyError (List β)
  | [] => .ok []
  | x :: xs => do
    let y ← f x
    let ys ← mapExcept f xs
    pure (y :: ys)

/-- Message of the ValueError raised for a non-homogeneous list and for a list
of paths with a missing path (the source reuses one string for both). -/
def msgBadList : String :=
  "Input must be either a list/array of images or a list of valid image paths."

/-- Message of the ValueError raised when some sample is not 3-dimensional. -/
def msgHWC : String := "Each sample must be an array of the form HWC."

/-- Message of the ValueError raised when sample shapes differ. -/
def msgSameDims : String := "Images must have the same dimensions."

/-- Message of the ValueError numpy raises for np.max on an empty sequence. -/
def msgEmptyMax : String :=
  "zero-size array to reduction operation maximum which has no identity"

/-- Message of the ValueError raised for a non-numerical input array. -/
def msgNonNumerical : String := "Provided input array is non-numerical."

/-- Message of the ValueError raised when the input array is not 4-dimensional. -/
def msgNHWC : String :=
  "Input must be an array of images of the form NHWC. This can be achieved by converting a list of images to a numpy array.  eg., np.array([img1, img2])."

/-- Message of the ValueError raised when img_list is neither list nor array. -/
def msgBadInput : String :=
  "Input must be either a list/array of images or a list of valid paths to image."

/-- Test whether an element is a pathlib.Path or str instance. -/
def isPathElem : ImgElem → Bool
  | .path _ => true
  | _ => false

/-- Test whether an element is an np.ndarray instance. -/
def isArrElem : ImgElem → Bool
  | .arr _ => true
  | _ => false

/-- Shape of an element in the all-arrays branch (the fallback is unreachable
there since every element is an array). -/
def elemShape : ImgElem → List Nat
  | .arr a => a.shape
  | _ => []

/-- The preload pass of the all-paths branch: decode each path with load_img
and keep only its shape. -/
def pathShape (fs : FS) : ImgElem → Except PyError (List Nat)
  | .path p => (load_img fs p).map NDArray.shape
  | _ => .error .typeError

/-- Elementwise maximum fold, as np.max(shape_list, axis=0) computes it on a
nonempty rectangular list. -/
def npMaxAxis0 (s : List Nat) (rest : List (List Nat)) : List Nat :=
  rest.foldl (fun acc t => List.zipWith max acc t) s

/-- The quantity (shape_list - max_shape[None]).sum() of the uniformity check. -/
def shapeDiffSum (shape_list : List (List Nat)) (max_shape : List Nat) : Int :=
  (shape_list.map
      (fun t => (List.zipWith (fun (a b : Nat) => (a : Int) - (b : Int)) t max_shape).sum)).sum

/-- The shape checks of lines 217-223: every shape must have exactly three
dimensions, np.max needs a nonempty list, and the max-difference sum must be
zero. Returns nothing on success. -/
def shapeChecks (shape_list : List (List Nat)) : Except PyError Unit :=
  if shape_list.any (fun v => v.length ≠ 3) then
    .error (.valueError msgHWC)
  else
    match shape_list with
    | [] => .error (.valueError msgEmptyMax)
    | s :: rest =>
      if shapeDiffSum (s :: rest) (npMaxAxis0 s rest) ≠ 0 then
        .error (.valueError msgSameDims)
      else
        .ok ()

/-- The list branch of PatchDataset.__init__ (lines 192-223): homogeneity
check, eager path-existence check with preload of shapes for the path case,
then the shape checks. Yields the value of data_is_npy_alike. -/
def listBranch (fs : FS) (xs : List ImgElem) : Except PyError Bool := do
  let is_all_path_list := xs.all isPathElem
  let is_all_npy_list := xs.all isArrElem
  if ¬ (is_all_path_list ∨ is_all_npy_list) then
    Except.error (.valueError msgBadList)
  else do
    let pair ←
      if is_all_path_list then
        if xs.any (fun v => match v with | .path p => (fs p).isNone | _ => false) then
          Except.error (.valueError msgBadList)
        else do
          let shape_list ← mapExcept (pathShape fs) xs
          pure (shape_list, false)
      else
        pure (xs.map elemShape, true)
    shapeChecks pair.1
    pure pair.2

/-- The array branch of PatchDataset.__init__ (lines 226-238): numeric dtype
and exactly four dimensions. -/
def arrayBranch (a : NDArray) : Except PyError Unit :=
  if a.dtype ≠ .numeric then
    .error (.valueError msgNonNumerical)
  else if a.shape.length ≠ 4 then
    .error (.valueError msgNHWC)
  else
    .ok ()

/-- len(img_list) for the accepted inputs: list length, or the leading
dimension of the array (the array branch guarantees four dimensions). -/
def inputLen : PyInput → Nat
  | .list xs => xs.length
  | .ndarray a => a.shape.headD 0
  | .other => 0

/-- The label backfill of lines 246-247: with no label_list, a same-length
list of np.nan. -/
def resolveLabels (label_list : Option (List Label)) (n : Nat) : List Label :=
  match label_list with
  | none => List.replicate n Label.nan
  | some ls => ls

/-- Embedding of PatchDataset.__init__: validate img_list per branch, then
store img_list, label_list (backfilled with nan when absent), the mode flag
and the preprocessing function (via set_preproc_func in the super call). -/
def PatchDataset_init (fs : FS) (img_list : PyInput) (label_list : Option (List Label))
    (return_labels : Bool) (preproc_func : Option (NDArray → NDArray)) :
    Except PyError Dataset := do
  let npy_alike ←
    match img_list with
    | .list xs => listBranch fs xs
    | .ndarray a => do
      arrayBranch a
      pure true
    | .other => Except.error (.valueError msgBadInput)
  let stored :=
    match img_list with
    | .list xs => Stored.pyList xs
    | .ndarray a => Stored.ndarr a
    | .other => Stored.pyList []
  pure (set_preproc_func
    { img_list := stored
      label_list := resolveLabels label_list (inputLen img_list)
      data_is_npy_alike := npy_alike
      preproc_func := fun x => x
      return_labels := return_labels }
    preproc_func)

/-- The fixed eight category codes of the Kather dataset, order = label index. -/
def label_code_list : List String :=
  ["01_TUMOR", "02_STROMA", "03_COMPLEX", "04_LYMPHO",
   "05_DEBRIS", "06_MUCOSA", "07_ADIPOSE", "08_EMPTY"]

/-- Python string comparison: lexicographic over code points. -/
def charListLt : List Char → List Char → Bool
  | [], [] => false
  | [], _ :: _ => true
  | _ :: _, [] => false
  | a :: as, b :: bs =>
    if a.toNat < b.toNat then true
    else if b.toNat < a.toNat then false
    else charListLt as bs

/-- Python string less-than on the underlying character sequences. -/
def pyStrLt (a b : String) : Bool :=
  charListLt a.toList b.toList

/-- Python comparison of the two-element lists [path, label_id]: lexicographic,
path first. -/
def pairLt (x y : String × Nat) : Bool :=
  pyStrLt x.1 y.1 || (x.1 == y.1 && decide (x.2 < y.2))

/-- Insert into a sorted list, keeping earlier-inserted equals first. -/
def insertAsc {α : Type} (lt : α → α → Bool) (x : α) : List α → List α
  | [] => [x]
  | y :: ys => if lt x y then x :: y :: ys else y :: insertAsc lt x ys

/-- Model of Python list.sort: a stable ascending sort. -/
def pySort {α : Type} (lt : α → α → Bool) (xs : List α) : List α :=
  xs.foldl (fun acc x => insertAsc lt x acc) []

/-- One category of KatherPatchDataset.__init__: glob the category directory,
pair every path with the category's label index, and sort. -/
def katherCat (glob : String → List String) (save_dir_path : String) (label_id : Nat)
    (label_code : String) : List (String × Nat) :=
  pySort pairLt
    ((glob (save_dir_path ++ "/" ++ label_code ++ "/")).map (fun v => (v, label_id)))

/-- The concatenation of all eight per-category lists, in category order. -/
def katherAll (glob : String → List String) (save_dir_path : String) :
    List (String × Nat) :=
  (label_code_list.enum.map (fun p => katherCat glob save_dir_path p.1 p.2)).flatten

/-- Embedding of KatherPatchDataset.__init__ for a caller-supplied directory:
`glob` models grab_files_from_dir (a missing or empty subdirectory yields []),
`save_dir_ok` models os.path.exists(save_dir_path). The save_dir_path=None
branch (download and extract into the toolbox cache) is a collaborator call
outside this model. Unpacking list(zip(*all_path_list)) into two variables
raises a ValueError when all_path_list is empty. -/
def KatherPatchDataset_init (glob : String → List String) (save_dir_path : String)
    (save_dir_ok : Bool) (return_labels : Bool)
    (preproc_func : Option (NDArray → NDArray)) :
    Except PyError (Dataset × List String) :=
  if ¬ save_dir_ok then
    .error (.valueError ("Dataset does not exist at `" ++ save_dir_path ++ "`"))
  else
    match katherAll glob save_dir_path with
    | [] => .error (.valueError "not enough values to unpack (expected 2, got 0)")
    | q :: rest =>
      .ok
        (set_preproc_func
          { img_list := Stored.pyList ((q :: rest).map (fun r => ImgElem.path r.1))
            label_list := (q :: rest).map (fun r => Label.val (r.2 : Int))
            data_is_npy_alike := false
            preproc_func := fun x => x
            return_labels := return_labels }
          preproc_func,
        label_code_list)

/-- The array numpy returns for a[i] on a nonempty leading axis. -/
def ndSlice (a : NDArray) (i : Nat) : NDArray :=
  ⟨a.shape.tail, a.dtype, (a.data.drop (i * a.shape.tail.prod)).take a.shape.tail.prod⟩

/-- A concrete 2x2x3 image. -/
def arrA : NDArray := ⟨[2, 2, 3], .numeric, [1, 2, 3, 4, 5, 6, 7, 8, 9, 10, 11, 12]⟩

/-- A second concrete 2x2x3 image. -/
def arrB : NDArray := ⟨[2, 2, 3], .numeric, [0, 0, 0, 0, 0, 0, 0, 0, 0, 0, 0, 0]⟩

/-- A concrete 2x2x2x3 image stack. -/
def arr4 : NDArray := ⟨[2, 2, 2, 3], .numeric, (List.range 24).map Int.ofNat⟩

/-- A concrete filesystem with two decodable png files and one npy file. -/
def fsEx : FS := fun p =>
  if p = "a.png" then some (.imgData arrA)
  else if p = "b.png" then some (.imgData arrB)
  else if p = "c.npy" then some (.npyData arrA)
  else none

/-- The empty filesystem. -/
def fsEmpty : FS := fun _ => none

/-- A concrete directory enumeration: two tif files under 01_TUMOR (listed out
of order) and one under 03_COMPLEX; every other directory is missing or empty. -/
def globEx : String → List String := fun d =>
  if d = "K/01_TUMOR/" then ["K/01_TUMOR/b.tif", "K/01_TUMOR/a.tif"]
  else if d = "K/03_COMPLEX/" then ["K/03_COMPLEX/z.tif"]
  else []

/-- A concrete path-referenced dataset, as PatchDataset builds it from
["a.png", "b.png"] with labels [0, 1] and return_labels=True. -/
def dsPaths : Dataset :=
  { img_list := Stored.pyList [ImgElem.path "a.png", ImgElem.path "b.png"]
    label_list := [Label.val 0, Label.val 1]
    data_is_npy_alike := false
    preproc_func := fun x => x
    return_labels := true }

/-- A concrete preloaded dataset backed by the 4D stack arr4 with labels
[3, 4] and return_labels=True. -/
def dsArr4 : Dataset :=
  { img_list := Stored.ndarr arr4
    label_list := [Label.val 3, Label.val 4]
    data_is_npy_alike := true
    preproc_func := fun x => x
    return_labels := true }

/-- A concrete preloaded list dataset over two in-memory arrays, no labels. -/
def dsArrs : Dataset :=
  { img_list := Stored.pyList [ImgElem.arr arrA, ImgElem.arr arrB]
    label_list := [Label.nan, Label.nan]
    data_is_npy_alike := true
    preproc_func := fun x => x
    return_labels := false }

/-! ## Helper lemmas about the constructors -/

/-- Unfolding of PatchDataset_init on a Python list input. -/
theorem init_list_eq (fs : FS) (xs : List ImgElem) (lab : Option (List Label))
    (rl : Bool) (pf : Option (NDArray → NDArray)) :
    PatchDataset_init fs (.list xs) lab rl pf =
      (listBranch fs xs).bind (fun npy_alike =>
        Except.ok (set_preproc_func
          { img_list := Stored.pyList xs
            label_list := resolveLabels lab xs.length
            data_is_npy_alike := npy_alike
            preproc_func := fun x => x
            return_labels := rl } pf)) := by
  cases h : listBranch fs xs <;>
    simp [PatchDataset_init, h, Except.bind, bind, inputLen, pure, Except.pure]

/-- Unfolding of PatchDataset_init on a numpy array input. -/
theorem init_ndarray_eq (fs : FS) (a : NDArray) (lab : Option (List Label))
    (rl : Bool) (pf : Option (NDArray → NDArray)) :
    PatchDataset_init fs (.ndarray a) lab rl pf =
      (arrayBranch a).bind (fun _ =>
        Except.ok (set_preproc_func
          { img_list := Stored.ndarr a
            label_list := resolveLabels lab (a.shape.headD 0)
            data_is_npy_alike := true
            preproc_func := fun x => x
            return_labels := rl } pf)) := by
  cases h : arrayBranch a <;>
    simp [PatchDataset_init, h, Except.bind, bind, inputLen, pure, Except.pure]

/-- The list branch fails on a non-homogeneous list. -/
theorem listBranch_mixed (fs : FS) (xs : List ImgElem)
    (h1 : xs.all isPathElem = false) (h2 : xs.all isArrElem = false) :
    listBranch fs xs = .error (.valueError msgBadList) := by
  simp [listBranch, h1, h2]

/-- The list branch fails when all elements are paths and one is missing. -/
theorem listBranch_missing (fs : FS) (xs : List ImgElem)
    (h1 : xs.all isPathElem = true)
    (h2 : xs.any (fun v => match v with | .path p => (fs p).isNone | _ => false) = true) :
    listBranch fs xs = .error (.valueError msgBadList) := by
  simp [listBranch, h1, h2, Except.bind, bind, Except.map, Functor.map]

/-- The list branch on an all-paths list with no missing path reduces to the
shape checks over the preloaded shapes. -/
theorem listBranch_paths (fs : FS) (xs : List ImgElem) (ss : List (List Nat))
    (h1 : xs.all isPathElem = true)
    (h2 : xs.any (fun v => match v with | .path p => (fs p).isNone | _ => false) = false)
    (h3 : mapExcept (pathShape fs) xs = .ok ss) :
    listBranch fs xs = (shapeChecks ss).bind (fun _ => .ok false) := by
  cases h4 : shapeChecks ss <;>
    simp [listBranch, h1, h2, h3, h4, Except.bind, bind, pure, Except.pure]

/-- The list branch on an all-arrays list reduces to the shape checks over the
element shapes. -/
theorem listBranch_arrs (fs : FS) (xs : List ImgElem)
    (h1 : xs.all isPathElem = false) (h2 : xs.all isArrElem = true) :
    listBranch fs xs = (shapeChecks (xs.map elemShape)).bind (fun _ => .ok true) := by
  cases h4 : shapeChecks (xs.map elemShape) <;>
    simp [listBranch, h1, h2, h4, Except.bind, bind, pure, Except.pure]

/-! ## C7: load_img dispatches solely on the file extension -/

/-- C7: load_img dispatches solely on the file extension: a ".npy" suffix goes
to np.load, the five recognized image suffixes go to imread, and any other
suffix raises the unsupported-format ValueError regardless of the file's
existence or content (no fallback, no content sniffing). -/
theorem c7_load_img_dispatch (fs : FS) (p : String) :
    (pySuffix p = ".npy" → load_img fs p = np_load fs p) ∧
    (pySuffix p = ".jpg" ∨ pySuffix p = ".jpeg" ∨ pySuffix p = ".tif"
        ∨ pySuffix p = ".tiff" ∨ pySuffix p = ".png" →
      load_img fs p = imread fs p) ∧
    (pySuffix p ≠ ".npy" →
      ¬ (pySuffix p = ".jpg" ∨ pySuffix p = ".jpeg" ∨ pySuffix p = ".tif"
          ∨ pySuffix p = ".tiff" ∨ pySuffix p = ".png") →
      load_img fs p = .error (.valueError ("Can not load data of `" ++ pySuffix p ++ "`"))) := by
  refine ⟨fun h => ?_, fun h => ?_, fun h1 h2 => ?_⟩
  · simp [load_img, h]
  · rcases h with h | h | h | h | h <;> simp [load_img, h]
  · simp [load_img, h1, h2]

/-- Witness for C7 at three concrete paths on the concrete filesystem. -/
theorem c7_witness :
    load_img fsEx "c.npy" = np_load fsEx "c.npy" ∧
    load_img fsEx "a.png" = imread fsEx "a.png" ∧
    load_img fsEx "a.gif" = .error (.valueError "Can not load data of `.gif`") :=
  ⟨(c7_load_img_dispatch fsEx "c.npy").1 (by decide),
   (c7_load_img_dispatch fsEx "a.png").2.1 (by decide),
   (c7_load_img_dispatch fsEx "a.gif").2.2 (by decide) (by decide)⟩

/-! ## C10: the empty list is rejected -/

/-- C10: for the empty list as img_source, with any label_source, construction
fails by raising a ValueError, even though the empty list vacuously passes the
homogeneity, existence, and 3-dimensionality checks: np.max over the empty
shape list has no identity. -/
theorem c10_empty_list_fails (fs : FS) (label_list : Option (List Label))
    (rl : Bool) (pf : Option (NDArray → NDArray)) :
    PatchDataset_init fs (.list []) label_list rl pf =
      .error (.valueError msgEmptyMax) := by
  rw [init_list_eq]
  rfl

/-! ## C5: mixed lists and missing paths are rejected eagerly -/

/-- C5: a list mixing path-like and in-memory elements (more generally, a list
that is neither all paths nor all arrays) fails construction with the
bad-input ValueError, and an all-paths list with at least one path missing
from the filesystem also fails with that ValueError, eagerly at construction. -/
theorem c5_mixed_or_missing (fs : FS) (xs : List ImgElem)
    (label_list : Option (List Label)) (rl : Bool) (pf : Option (NDArray → NDArray)) :
    (xs.all isPathElem = false → xs.all isArrElem = false →
      PatchDataset_init fs (.list xs) label_list rl pf = .error (.valueError msgBadList)) ∧
    (xs.all isPathElem = true →
      xs.any (fun v => match v with | .path p => (fs p).isNone | _ => false) = true →
      PatchDataset_init fs (.list xs) label_list rl pf = .error (.valueError msgBadList)) := by
  constructor
  · intro h1 h2
    rw [init_list_eq, listBranch_mixed fs xs h1 h2]
    rfl
  · intro h1 h2
    rw [init_list_eq, listBranch_missing fs xs h1 h2]
    rfl

/-- Witness for C5: a concrete mixed list and a concrete all-paths list with a
missing second path are both rejected. -/
theorem c5_witness :
    PatchDataset_init fsEx (.list [ImgElem.path "a.png", ImgElem.arr arrA]) none false none
      = .error (.valueError msgBadList) ∧
    PatchDataset_init fsEx (.list [ImgElem.path "a.png", ImgElem.path "z.png"]) none false none
      = .error (.valueError msgBadList) :=
  ⟨(c5_mixed_or_missing fsEx [ImgElem.path "a.png", ImgElem.arr arrA] none false none).1
      (by decide) (by decide),
   (c5_mixed_or_missing fsEx [ImgElem.path "a.png", ImgElem.path "z.png"] none false none).2
      (by decide) (by decide)⟩

/-! ## C6: single-array inputs -/

/-- C6: for a single numpy array as img_source, construction fails with the
non-numerical ValueError when the dtype is not numeric, fails with the NHWC
ValueError when the array is numeric but not 4-dimensional, and succeeds for
every numeric 4-dimensional array with no per-sample shape check: the stored
state is produced unconditionally from the array itself. -/
theorem c6_single_array (fs : FS) (a : NDArray) (label_list : Option (List Label))
    (rl : Bool) (pf : Option (NDArray → NDArray)) :
    (a.dtype ≠ .numeric →
      PatchDataset_init fs (.ndarray a) label_list rl pf =
        .error (.valueError msgNonNumerical)) ∧
    (a.dtype = .numeric → a.shape.length ≠ 4 →
      PatchDataset_init fs (.ndarray a) label_list rl pf =
        .error (.valueError msgNHWC)) ∧
    (a.dtype = .numeric → a.shape.length = 4 →
      PatchDataset_init fs (.ndarray a) label_list rl pf =
        .ok (set_preproc_func
          { img_list := Stored.ndarr a
            label_list := resolveLabels label_list (a.shape.headD 0)
            data_is_npy_alike := true
            preproc_func := fun x => x
            return_labels := rl } pf)) := by
  refine ⟨fun h => ?_, fun h1 h2 => ?_, fun h1 h2 => ?_⟩
  · rw [init_ndarray_eq]
    simp [arrayBranch, h, Except.bind, bind]
  · rw [init_ndarray_eq]
    simp [arrayBranch, h1, h2, Except.bind, bind]
  · rw [init_ndarray_eq]
    simp [arrayBranch, h1, h2, Except.bind, bind]

/-- Witness for C6 at three concrete arrays: a non-numeric 4D array, a numeric
3D array, and the numeric 4D stack arr4. -/
theorem c6_witness :
    PatchDataset_init fsEx (.ndarray ⟨[2, 2, 2, 3], .nonNumeric, []⟩) none false none
      = .error (.valueError msgNonNumerical) ∧
    PatchDataset_init fsEx (.ndarray arrA) none false none
      = .error (.valueError msgNHWC) ∧
    (PatchDataset_init fsEx (.ndarray arr4) none false none).isOk = true := by
  refine ⟨(c6_single_array fsEx ⟨[2, 2, 2, 3], .nonNumeric, []⟩ none false none).1 (by decide),
    (c6_single_array fsEx arrA none false none).2.1 (by decide) (by decide), ?_⟩
  rw [(c6_single_array fsEx arr4 none false none).2.2 (by decide) (by decide)]
  rfl

/-! ## C8: set_preproc_func None resets to identity -/

/-- C8: on any dataset with return_labels false, installing None as the
preprocessing function and then reading index idx returns exactly the raw
resolved sample (decoded in path mode, directly indexed in preloaded mode),
unmodified. -/
theorem c8_preproc_none_identity (fs : FS) (ds : Dataset) (idx : Int)
    (h : ds.return_labels = false) :
    getitem fs (set_preproc_func ds none) idx =
      (raw_sample fs ds idx).map GetResult.single := by
  have hraw : raw_sample fs (set_preproc_func ds none) idx = raw_sample fs ds idx := rfl
  have h2 : (set_preproc_func ds none).return_labels = false := h
  have h3 : (set_preproc_func ds none).preproc_func = fun x => x := rfl
  cases hr : raw_sample fs ds idx <;>
    simp only [getitem, hraw, hr, h2, h3, Except.map, Except.bind, bind, pure, Except.pure,
      Bool.false_eq_true, if_false]

/-- Witness for C8: resetting preprocessing on a concrete preloaded dataset
whose preprocessing function increments every entry, then reading index 0,
yields the untouched first array. -/
theorem c8_witness :
    getitem fsEmpty
      (set_preproc_func
        { dsArrs with preproc_func := fun a => ⟨a.shape, a.dtype, a.data.map (· + 1)⟩ }
        none) 0 = .ok (GetResult.single arrA) := by
  rw [c8_preproc_none_identity fsEmpty
    { dsArrs with preproc_func := fun a => ⟨a.shape, a.dtype, a.data.map (· + 1)⟩ } 0 rfl]
  rfl

/-! ## Arithmetic of the shape-uniformity check

The source checks uniformity with (shape_list - max_shape[None]).sum() != 0
where max_shape is the elementwise maximum. The lemmas below show that for a
nonempty list of equal-length shapes this sum is zero exactly when all shapes
coincide. -/

/-- The elementwise maximum of a list with itself. -/
theorem zipWith_max_self (s : List Nat) : List.zipWith max s s = s := by
  induction s with
  | nil => rfl
  | cons a t ih => simp [List.zipWith, ih]

/-- The elementwise max fold over copies of s is s. -/
theorem npMaxAxis0_all_eq (s : List Nat) (rest : List (List Nat))
    (h : ∀ t ∈ rest, t = s) : npMaxAxis0 s rest = s := by
  induction rest with
  | nil => rfl
  | cons r rs ih =>
    have hr : r = s := h r (by simp)
    have : npMaxAxis0 s (r :: rs) = npMaxAxis0 (List.zipWith max s r) rs := rfl
    rw [this, hr, zipWith_max_self]
    exact ih (fun t ht => h t (by simp [ht]))

/-- Subtracting a list of naturals from itself elementwise sums to zero. -/
theorem zip_sub_self_sum (s : List Nat) :
    (List.zipWith (fun (a b : Nat) => (a : Int) - (b : Int)) s s).sum = 0 := by
  induction s with
  | nil => rfl
  | cons a t ih => simp [List.zipWith, ih]

/-- Each list is elementwise below its elementwise max with another of the
same length. -/
theorem le_zipWith_max_left : ∀ (a b : List Nat), a.length = b.length →
    List.Forall₂ (· ≤ ·) a (List.zipWith max a b)
  | [], [], _ => List.Forall₂.nil
  | x :: xs, y :: ys, h =>
    List.Forall₂.cons (Nat.le_max_left x y)
      (le_zipWith_max_left xs ys (by simpa using h))
  | [], _ :: _, h => by simp at h
  | _ :: _, [], h => by simp at h

/-- The second list is elementwise below the elementwise max. -/
theorem le_zipWith_max_right : ∀ (a b : List Nat), a.length = b.length →
    List.Forall₂ (· ≤ ·) b (List.zipWith max a b)
  | [], [], _ => List.Forall₂.nil
  | x :: xs, y :: ys, h =>
    List.Forall₂.cons (Nat.le_max_right x y)
      (le_zipWith_max_right xs ys (by simpa using h))
  | [], _ :: _, h => by simp at h
  | _ :: _, [], h => by simp at h

/-- Transitivity of elementwise order on lists of naturals. -/
theorem forall2_le_trans : ∀ {a b c : List Nat},
    List.Forall₂ (· ≤ ·) a b → List.Forall₂ (· ≤ ·) b c →
    List.Forall₂ (· ≤ ·) a c := by
  intro a b c h1 h2
  induction h1 generalizing c with
  | nil => cases h2; exact List.Forall₂.nil
  | cons hxy htail ih =>
    cases h2 with
    | cons hyz h2tail => exact List.Forall₂.cons (le_trans hxy hyz) (ih h2tail)

/-- The accumulator stays elementwise below the elementwise-max fold. -/
theorem acc_le_npMax (k : Nat) : ∀ (rest : List (List Nat)) (acc : List Nat),
    acc.length = k → (∀ t ∈ rest, t.length = k) →
    List.Forall₂ (· ≤ ·) acc (npMaxAxis0 acc rest) := by
  intro rest
  induction rest with
  | nil =>
    intro acc _ _
    exact List.forall₂_refl acc
  | cons r rs ih =>
    intro acc hacc hall
    have hr : r.length = k := hall r (by simp)
    have h1 : List.Forall₂ (· ≤ ·) acc (List.zipWith max acc r) :=
      le_zipWith_max_left acc r (by omega)
    have hlen : (List.zipWith max acc r).length = k := by
      rw [List.length_zipWith]; omega
    have h2 : List.Forall₂ (· ≤ ·) (List.zipWith max acc r) (npMaxAxis0 (List.zipWith max acc r) rs) :=
      ih (List.zipWith max acc r) hlen (fun t ht => hall t (by simp [ht]))
    exact forall2_le_trans h1 h2

/-- Every member of the folded list stays elementwise below the fold. -/
theorem mem_le_npMax (k : Nat) : ∀ (rest : List (List Nat)) (acc : List Nat) (t : List Nat),
    t ∈ rest → acc.length = k → (∀ u ∈ rest, u.length = k) →
    List.Forall₂ (· ≤ ·) t (npMaxAxis0 acc rest) := by
  intro rest
  induction rest with
  | nil => intro acc t ht; cases ht
  | cons r rs ih =>
    intro acc t ht hacc hall
    have hr : r.length = k := hall r (by simp)
    have hlen : (List.zipWith max acc r).length = k := by
      rw [List.length_zipWith]; omega
    have hstep : npMaxAxis0 acc (r :: rs) = npMaxAxis0 (List.zipWith max acc r) rs := rfl
    rcases List.mem_cons.mp ht with h | h
    · subst h
      have h1 : List.Forall₂ (· ≤ ·) t (List.zipWith max acc t) :=
        le_zipWith_max_right acc t (by omega)
      have h2 : List.Forall₂ (· ≤ ·) (List.zipWith max acc t) (npMaxAxis0 (List.zipWith max acc t) rs) :=
        acc_le_npMax k rs (List.zipWith max acc t) hlen (fun u hu => hall u (by simp [hu]))
      rw [hstep]
      exact forall2_le_trans h1 h2
    · rw [hstep]
      exact ih (List.zipWith max acc r) t h hlen (fun u hu => hall u (by simp [hu]))

/-- The per-shape difference sum is nonpositive when the shape is elementwise
below the max. -/
theorem diff_sum_nonpos {t m : List Nat} (h : List.Forall₂ (· ≤ ·) t m) :
    (List.zipWith (fun (a b : Nat) => (a : Int) - (b : Int)) t m).sum ≤ 0 := by
  induction h with
  | nil => simp
  | cons hab _ ih =>
    simp only [List.zipWith, List.sum_cons]
    omega

/-- The per-shape difference sum vanishes exactly on equality, below the max. -/
theorem diff_sum_eq_zero_iff {t m : List Nat} (h : List.Forall₂ (· ≤ ·) t m) :
    (List.zipWith (fun (a b : Nat) => (a : Int) - (b : Int)) t m).sum = 0 ↔ t = m := by
  induction h with
  | nil => simp
  | @cons a b t' m' hab htail ih =>
    have hrest := diff_sum_nonpos htail
    simp only [List.zipWith, List.sum_cons, List.cons.injEq]
    constructor
    · intro hsum
      have ha : (a : Int) = b := by omega
      have hz : (List.zipWith (fun (a b : Nat) => (a : Int) - (b : Int)) t' m').sum = 0 := by
        omega
      exact ⟨by exact_mod_cast ha, ih.mp hz⟩
    · rintro ⟨h1, h2⟩
      subst h1
      have hz := ih.mpr h2
      omega

/-- A list of nonpositive integers sums to something nonpositive. -/
theorem list_sum_nonpos : ∀ (l : List Int), (∀ x ∈ l, x ≤ 0) → l.sum ≤ 0 := by
  intro l
  induction l with
  | nil => simp
  | cons a t ih =>
    intro h
    have h1 : a ≤ 0 := h a (by simp)
    have h2 : t.sum ≤ 0 := ih (fun x hx => h x (by simp [hx]))
    simp only [List.sum_cons]
    omega

/-- A list of nonpositive integers summing to zero is all zeros. -/
theorem list_sum_zero_all_zero : ∀ (l : List Int), (∀ x ∈ l, x ≤ 0) → l.sum = 0 →
    ∀ x ∈ l, x = 0 := by
  intro l
  induction l with
  | nil => simp
  | cons a t ih =>
    intro h hsum x hx
    have h1 : a ≤ 0 := h a (by simp)
    have h2 : t.sum ≤ 0 := list_sum_nonpos t (fun y hy => h y (by simp [hy]))
    simp only [List.sum_cons] at hsum
    rcases List.mem_cons.mp hx with rfl | hx'
    · omega
    · exact ih (fun y hy => h y (by simp [hy])) (by omega) x hx'

/-- The shape checks fail first on any non-3-dimensional sample. -/
theorem shapeChecks_hwc (ss : List (List Nat))
    (h : (ss.any fun v => v.length ≠ 3) = true) :
    shapeChecks ss = .error (.valueError msgHWC) := by
  unfold shapeChecks
  rw [h]
  rfl

/-- The shape checks succeed on a nonempty list of identical 3-dim shapes. -/
theorem shapeChecks_ok (s : List Nat) (rest : List (List Nat))
    (h3 : s.length = 3) (heq : ∀ t ∈ s :: rest, t = s) :
    shapeChecks (s :: rest) = .ok () := by
  have hany : ((s :: rest).any fun v => v.length ≠ 3) = false := by
    rw [List.any_eq_false]
    intro t ht
    rw [heq t ht]
    simp [h3]
  have hmax : npMaxAxis0 s rest = s :=
    npMaxAxis0_all_eq s rest (fun t ht => heq t (by simp [ht]))
  have hsum : shapeDiffSum (s :: rest) (npMaxAxis0 s rest) = 0 := by
    rw [hmax]
    unfold shapeDiffSum
    apply List.sum_eq_zero
    intro x hx
    obtain ⟨t, ht, rfl⟩ := List.mem_map.mp hx
    rw [heq t ht]
    exact zip_sub_self_sum s
  unfold shapeChecks
  rw [hany]
  show (if shapeDiffSum (s :: rest) (npMaxAxis0 s rest) ≠ 0 then
      Except.error (PyError.valueError msgSameDims) else Except.ok ()) = Except.ok ()
  rw [if_neg (not_ne_iff.mpr hsum)]

/-- The shape checks fail with the same-dimensions error on a nonempty list of
3-dim shapes that are not all identical. -/
theorem shapeChecks_nonuniform (s : List Nat) (rest : List (List Nat))
    (h3 : ∀ t ∈ s :: rest, t.length = 3)
    (hne : ¬ ∀ t ∈ s :: rest, t = s) :
    shapeChecks (s :: rest) = .error (.valueError msgSameDims) := by
  have hany : ((s :: rest).any fun v => v.length ≠ 3) = false := by
    rw [List.any_eq_false]
    intro t ht
    simp [h3 t ht]
  have hle : ∀ t ∈ s :: rest, List.Forall₂ (· ≤ ·) t (npMaxAxis0 s rest) := by
    intro t ht
    rcases List.mem_cons.mp ht with rfl | h
    · exact acc_le_npMax 3 rest t (h3 t ht) (fun u hu => h3 u (by simp [hu]))
    · exact mem_le_npMax 3 rest s t h (h3 s (by simp)) (fun u hu => h3 u (by simp [hu]))
  have hsum : shapeDiffSum (s :: rest) (npMaxAxis0 s rest) ≠ 0 := by
    intro h0
    unfold shapeDiffSum at h0
    have hz := list_sum_zero_all_zero
      ((s :: rest).map (fun t =>
        (List.zipWith (fun (a b : Nat) => (a : Int) - (b : Int)) t (npMaxAxis0 s rest)).sum))
      (by
        intro x hx
        obtain ⟨t, ht, rfl⟩ := List.mem_map.mp hx
        exact diff_sum_nonpos (hle t ht))
      h0
    apply hne
    intro t ht
    have htz := hz _ (List.mem_map.mpr ⟨t, ht, rfl⟩)
    have hsz := hz _ (List.mem_map.mpr ⟨s, by simp, rfl⟩)
    have hteq : t = npMaxAxis0 s rest := (diff_sum_eq_zero_iff (hle t ht)).mp htz
    have hseq : s = npMaxAxis0 s rest := (diff_sum_eq_zero_iff (hle s (by simp))).mp hsz
    rw [hteq, ← hseq]
  unfold shapeChecks
  rw [hany]
  show (if shapeDiffSum (s :: rest) (npMaxAxis0 s rest) ≠ 0 then
        Except.error (PyError.valueError msgSameDims) else Except.ok ()) =
      Except.error (PyError.valueError msgSameDims)
  rw [if_pos hsum]

/-! ## C2: shape homogeneity checks on list input -/

/-- C2 (amended): for a list-form img_source that passes the homogeneity and
path-existence checks and whose per-sample shapes resolve to ss: if any shape
is not exactly 3-dimensional, construction fails with the HWC ValueError; if
the list is nonempty, all shapes are 3-dimensional, but they are not all
identical, construction fails with the same-dimensions ValueError; and if the
list is nonempty with identical 3-dimensional shapes, construction succeeds
and the length equals the number of input elements. The amendment restricts
the success case to nonempty lists: the empty list passes every check
vacuously yet fails (see the counterexample). -/
theorem c2_shape_uniformity (fs : FS) (xs : List ImgElem) (ss : List (List Nat))
    (label_list : Option (List Label)) (rl : Bool) (pf : Option (NDArray → NDArray))
    (hhom : xs.all isPathElem = true ∨ xs.all isArrElem = true)
    (hex : xs.any (fun v => match v with | .path p => (fs p).isNone | _ => false) = false)
    (hss : (if xs.all isPathElem then mapExcept (pathShape fs) xs
            else .ok (xs.map elemShape)) = .ok ss) :
    ((ss.any fun v => v.length ≠ 3) = true →
      PatchDataset_init fs (.list xs) label_list rl pf = .error (.valueError msgHWC)) ∧
    (∀ s rest, ss = s :: rest → (∀ t ∈ ss, t.length = 3) → (¬ ∀ t ∈ ss, t = s) →
      PatchDataset_init fs (.list xs) label_list rl pf =
        .error (.valueError msgSameDims)) ∧
    (∀ s rest, ss = s :: rest → s.length = 3 → (∀ t ∈ ss, t = s) →
      PatchDataset_init fs (.list xs) label_list rl pf =
        .ok (set_preproc_func
          { img_list := Stored.pyList xs
            label_list := resolveLabels label_list xs.length
            data_is_npy_alike := !(xs.all isPathElem)
            preproc_func := fun x => x
            return_labels := rl } pf) ∧
      dslen (set_preproc_func
          { img_list := Stored.pyList xs
            label_list := resolveLabels label_list xs.length
            data_is_npy_alike := !(xs.all isPathElem)
            preproc_func := fun x => x
            return_labels := rl } pf) = .ok xs.length) := by
  have hlb : listBranch fs xs =
      (shapeChecks ss).bind (fun _ => .ok (!(xs.all isPathElem))) := by
    cases hpath : xs.all isPathElem with
    | true =>
      rw [hpath] at hss
      simp only [if_true] at hss
      rw [listBranch_paths fs xs ss hpath hex hss]
      rfl
    | false =>
      have harr : xs.all isArrElem = true := by
        rcases hhom with h | h
        · rw [hpath] at h; cases h
        · exact h
      rw [hpath] at hss
      simp only [Bool.false_eq_true, if_false, Except.ok.injEq] at hss
      rw [listBranch_arrs fs xs hpath harr, hss]
      rfl
  refine ⟨fun h => ?_, fun s rest hrw h3 hne => ?_, fun s rest hrw h3 heq => ?_⟩
  · rw [init_list_eq, hlb, shapeChecks_hwc ss h]
    rfl
  · subst hrw
    rw [init_list_eq, hlb, shapeChecks_nonuniform s rest h3 hne]
    rfl
  · subst hrw
    rw [init_list_eq, hlb, shapeChecks_ok s rest h3 heq]
    exact ⟨rfl, rfl⟩

/-- Counterexample for C2 as stated: the empty list passes the homogeneity,
existence, and (vacuously) shape checks, yet construction does not succeed. -/
theorem c2_counterexample :
    PatchDataset_init fsEx (.list []) none false none =
      .error (.valueError msgEmptyMax) := by
  rw [init_list_eq]
  rfl

/-- Witness for C2 at concrete inputs: two same-shape in-memory arrays
construct a length-2 dataset; two arrays of differing shapes are rejected. -/
theorem c2_witness :
    (PatchDataset_init fsEx (.list [ImgElem.arr arrA, ImgElem.arr arrB]) none false none =
      .ok (set_preproc_func
        { img_list := Stored.pyList [ImgElem.arr arrA, ImgElem.arr arrB]
          label_list := [Label.nan, Label.nan]
          data_is_npy_alike := true
          preproc_func := fun x => x
          return_labels := false } none) ∧
     dslen (set_preproc_func
        { img_list := Stored.pyList [ImgElem.arr arrA, ImgElem.arr arrB]
          label_list := [Label.nan, Label.nan]
          data_is_npy_alike := true
          preproc_func := fun x => x
          return_labels := false } none) = .ok 2) ∧
    PatchDataset_init fsEx
      (.list [ImgElem.arr arrA, ImgElem.arr ⟨[2, 3, 3], .numeric, []⟩]) none false none =
      .error (.valueError msgSameDims) := by
  constructor
  · have h := (c2_shape_uniformity fsEx [ImgElem.arr arrA, ImgElem.arr arrB]
      [[2, 2, 3], [2, 2, 3]] none false none (Or.inr (by decide)) (by decide)
      (by rfl)).2.2 [2, 2, 3] [[2, 2, 3]] rfl (by decide) (by decide)
    exact ⟨h.1, h.2⟩
  · exact (c2_shape_uniformity fsEx [ImgElem.arr arrA, ImgElem.arr ⟨[2, 3, 3], .numeric, []⟩]
      [[2, 2, 3], [2, 3, 3]] none false none (Or.inr (by decide)) (by decide)
      (by rfl)).2.1 [2, 2, 3] [[2, 3, 3]] rfl (by decide) (by decide)

/-! ## Indexing lemmas -/

/-- A nonnegative in-range Python index resolves without wrapping. -/
theorem pyIndex_nat {α : Type} (xs : List α) (i : Nat) (h : i < xs.length) :
    pyIndex xs (i : Int) = .ok (xs.get ⟨i, h⟩) := by
  have hw : pyWrap xs.length (i : Int) = (i : Int) := by
    unfold pyWrap
    rw [if_neg (by omega)]
  simp only [pyIndex, hw]
  rw [dif_pos ⟨by omega, by exact_mod_cast h⟩]
  simp

/-- A Python index outside [-len, len) raises IndexError. -/
theorem pyIndex_out {α : Type} (xs : List α) (i : Int)
    (h : i < -(xs.length : Int) ∨ (xs.length : Int) ≤ i) :
    pyIndex xs i = .error .indexError := by
  unfold pyIndex
  rw [dif_neg]
  unfold pyWrap
  split <;> omega

/-- A negative in-range Python index resolves like its wrapped counterpart. -/
theorem pyIndex_shift {α : Type} (xs : List α) (i : Int)
    (h1 : -(xs.length : Int) ≤ i) (h2 : i < 0) :
    pyIndex xs i = pyIndex xs (i + xs.length) := by
  have hw : pyWrap xs.length i = pyWrap xs.length (i + xs.length) := by
    unfold pyWrap
    split <;> split <;> omega
  unfold pyIndex
  simp only [hw]

/-- A nonnegative in-range numpy index yields the leading-axis slice. -/
theorem ndIndex_nat (a : NDArray) (n : Nat) (rest : List Nat) (hsh : a.shape = n :: rest)
    (i : Nat) (h : i < n) : ndIndex a (i : Int) = .ok (ndSlice a i) := by
  have hw : pyWrap n (i : Int) = (i : Int) := by
    unfold pyWrap
    rw [if_neg (by omega)]
  unfold ndIndex
  rw [hsh]
  simp only [hw]
  rw [if_pos ⟨by omega, by exact_mod_cast h⟩]
  simp [ndSlice, hsh]

/-- A numpy index outside [-n, n) raises IndexError. -/
theorem ndIndex_out (a : NDArray) (n : Nat) (rest : List Nat) (hsh : a.shape = n :: rest)
    (i : Int) (h : i < -(n : Int) ∨ (n : Int) ≤ i) :
    ndIndex a i = .error .indexError := by
  simp only [ndIndex, hsh]
  rw [if_neg]
  unfold pyWrap
  split <;> omega

/-- A negative in-range numpy index resolves like its wrapped counterpart. -/
theorem ndIndex_shift (a : NDArray) (n : Nat) (rest : List Nat) (hsh : a.shape = n :: rest)
    (i : Int) (h1 : -(n : Int) ≤ i) (h2 : i < 0) :
    ndIndex a i = ndIndex a (i + n) := by
  have hw : pyWrap n i = pyWrap n (i + n) := by
    unfold pyWrap
    split <;> split <;> omega
  simp only [ndIndex, hsh]
  simp only [hw]

/-! ## Inversion lemmas for successful construction -/

/-- Every element mapped successfully by mapExcept succeeds individually. -/
theorem mapExcept_ok_mem {α β : Type} (f : α → Except PyError β) :
    ∀ (xs : List α) (ys : List β), mapExcept f xs = .ok ys →
      ∀ x ∈ xs, ∃ y, f x = .ok y := by
  intro xs
  induction xs with
  | nil => intro ys _ x hx; cases hx
  | cons a t ih =>
    intro ys h x hx
    unfold mapExcept at h
    cases hfa : f a with
    | error e =>
      rw [hfa] at h
      simp [Except.bind, bind] at h
    | ok y =>
      rw [hfa] at h
      cases hmt : mapExcept f t with
      | error e =>
        rw [hmt] at h
        simp [Except.bind, bind] at h
      | ok ys' =>
        rcases List.mem_cons.mp hx with rfl | hx'
        · exact ⟨y, hfa⟩
        · exact ih ys' hmt x hx'

/-- The list branch with all paths present but a failing preload propagates
the preload error. -/
theorem listBranch_paths_err (fs : FS) (xs : List ImgElem) (e : PyError)
    (h1 : xs.all isPathElem = true)
    (h2 : xs.any (fun v => match v with | .path p => (fs p).isNone | _ => false) = false)
    (h3 : mapExcept (pathShape fs) xs = .error e) :
    listBranch fs xs = .error e := by
  simp [listBranch, h1, h2, h3, Except.bind, bind, Except.map, Functor.map]

/-- What a successful list branch guarantees: either all elements are paths
that decode successfully and the mode flag is false, or all elements are
arrays and the mode flag is true. -/
theorem listBranch_ok_inv {fs : FS} {xs : List ImgElem} {b : Bool}
    (h : listBranch fs xs = .ok b) :
    (xs.all isPathElem = true ∧ b = false ∧
      ∀ x ∈ xs, ∃ p a, x = ImgElem.path p ∧ load_img fs p = .ok a) ∨
    (xs.all isPathElem = false ∧ xs.all isArrElem = true ∧ b = true) := by
  cases hp : xs.all isPathElem with
  | true =>
    left
    refine ⟨rfl, ?_, ?_⟩
    · cases hmiss : xs.any (fun v => match v with | .path p => (fs p).isNone | _ => false) with
      | true => rw [listBranch_missing fs xs hp hmiss] at h; cases h
      | false =>
        cases hm : mapExcept (pathShape fs) xs with
        | error e => rw [listBranch_paths_err fs xs e hp hmiss hm] at h; cases h
        | ok ss =>
          rw [listBranch_paths fs xs ss hp hmiss hm] at h
          cases hsc : shapeChecks ss with
          | error e => rw [hsc] at h; cases h
          | ok u =>
            rw [hsc] at h
            cases u
            cases h
            rfl
    · intro x hx
      cases hmiss : xs.any (fun v => match v with | .path p => (fs p).isNone | _ => false) with
      | true => rw [listBranch_missing fs xs hp hmiss] at h; cases h
      | false =>
        cases hm : mapExcept (pathShape fs) xs with
        | error e => rw [listBranch_paths_err fs xs e hp hmiss hm] at h; cases h
        | ok ss =>
          obtain ⟨sh, hsh⟩ := mapExcept_ok_mem (pathShape fs) xs ss hm x hx
          have hxp : isPathElem x = true := List.all_eq_true.mp hp x hx
          cases x with
          | path p =>
            simp only [pathShape] at hsh
            cases hload : load_img fs p with
            | error e =>
              rw [hload] at hsh
              simp [Except.map] at hsh
            | ok a => exact ⟨p, a, rfl, hload⟩
          | arr a => cases hxp
          | other => cases hxp
  | false =>
    right
    cases ha : xs.all isArrElem with
    | true =>
      refine ⟨rfl, rfl, ?_⟩
      rw [listBranch_arrs fs xs hp ha] at h
      cases hsc : shapeChecks (xs.map elemShape) with
      | error e => rw [hsc] at h; cases h
      | ok u =>
        rw [hsc] at h
        cases u
        cases h
        rfl
    | false =>
      rw [listBranch_mixed fs xs hp ha] at h
      cases h

/-- What a successful array branch guarantees: numeric dtype and exactly four
dimensions. -/
theorem arrayBranch_ok_inv {a : NDArray} {u : Unit} (h : arrayBranch a = .ok u) :
    a.dtype = .numeric ∧ a.shape.length = 4 := by
  unfold arrayBranch at h
  by_cases h1 : a.dtype = .numeric
  · by_cases h2 : a.shape.length = 4
    · exact ⟨h1, h2⟩
    · rw [if_neg (by simpa using h1), if_pos h2] at h; cases h
  · rw [if_pos (by simpa using h1)] at h; cases h

/-! ## C4: index-range behavior of get -/

/-- C4 (amended): for every constructed dataset of length n, get raises
IndexError exactly for indices outside [-n, n): indices at or beyond n and
indices below -n fail, while a negative index in [-n, 0) is not an error but
resolves like its wrapped counterpart idx + n, per Python indexing. Stated
for datasets whose label list length matches n (always true when labels were
synthesized). -/
theorem c4_index_bounds (fs : FS) (input : PyInput) (label_list : Option (List Label))
    (rl : Bool) (pf : Option (NDArray → NDArray)) (ds : Dataset) (n : Nat)
    (_hds : PatchDataset_init fs input label_list rl pf = .ok ds)
    (hn : dslen ds = .ok n) (hlab : ds.label_list.length = n) :
    (∀ idx : Int, (idx < -(n : Int) ∨ (n : Int) ≤ idx) →
      getitem fs ds idx = .error .indexError) ∧
    (∀ idx : Int, -(n : Int) ≤ idx → idx < 0 →
      getitem fs ds idx = getitem fs ds (idx + n)) := by
  cases hst : ds.img_list with
  | pyList xs =>
    have hxn : xs.length = n := by
      simp only [dslen, hst, Except.ok.injEq] at hn
      exact hn
    constructor
    · intro idx hidx
      have hx : pyIndex xs idx = .error .indexError := by
        apply pyIndex_out
        rw [hxn]
        exact hidx
      simp only [getitem, raw_sample, hst, hx, Except.bind, bind]
    · intro idx h1 h2
      have e1 : pyIndex xs idx = pyIndex xs (idx + (n : Int)) := by
        have hsf := pyIndex_shift xs idx (by rw [hxn]; exact h1) h2
        rwa [hxn] at hsf
      have e2 : pyIndex ds.label_list idx = pyIndex ds.label_list (idx + (n : Int)) := by
        have hsf := pyIndex_shift ds.label_list idx (by rw [hlab]; exact h1) h2
        rwa [hlab] at hsf
      simp only [getitem, raw_sample, hst, e1, e2]
  | ndarr a =>
    cases hash : a.shape with
    | nil =>
      simp only [dslen, hst, hash] at hn
      exact absurd hn (by simp)
    | cons m rest =>
      have hmn : m = n := by
        simp only [dslen, hst, hash, Except.ok.injEq] at hn
        exact hn
      subst hmn
      constructor
      · intro idx hidx
        have hx : ndIndex a idx = .error .indexError := ndIndex_out a m rest hash idx hidx
        simp only [getitem, raw_sample, hst, hx, Except.bind, bind]
      · intro idx h1 h2
        have e1 : ndIndex a idx = ndIndex a (idx + (m : Int)) :=
          ndIndex_shift a m rest hash idx h1 h2
        have e2 : pyIndex ds.label_list idx = pyIndex ds.label_list (idx + (m : Int)) := by
          have hsf := pyIndex_shift ds.label_list idx (by rw [hlab]; exact h1) h2
          rwa [hlab] at hsf
        simp only [getitem, raw_sample, hst, e1, e2]

/-- Counterexample for C4 as stated: on a concrete constructed dataset of
length 2, the negative index -1 does not fail; it returns the last sample. -/
theorem c4_counterexample :
    (PatchDataset_init fsEx (.list [ImgElem.arr arrA, ImgElem.arr arrB]) none false none).map
      (fun ds => getitem fsEx ds (-1)) = .ok (.ok (GetResult.single arrB)) := by
  rfl

/-- Witness for C4 at a concrete dataset of length 2: index 5 raises
IndexError and index -1 agrees with index 1. -/
theorem c4_witness :
    getitem fsEx dsArrs 5 = .error .indexError ∧
    getitem fsEx dsArrs (-1) = getitem fsEx dsArrs 1 := by
  have h := c4_index_bounds fsEx (.list [ImgElem.arr arrA, ImgElem.arr arrB]) none false none
    dsArrs 2 rfl rfl rfl
  exact ⟨h.1 5 (by omega), by
    have h2 := h.2 (-1) (by omega) (by omega)
    simpa using h2⟩

/-- Unfolding of PatchDataset_init on an input that is neither list nor array. -/
theorem init_other_eq (fs : FS) (lab : Option (List Label)) (rl : Bool)
    (pf : Option (NDArray → NDArray)) :
    PatchDataset_init fs .other lab rl pf = .error (.valueError msgBadInput) := rfl

/-- Evaluation of raw_sample at a valid nonnegative index on list storage. -/
theorem raw_sample_pyList (fs : FS) (ds : Dataset) (xs : List ImgElem) (i : Nat)
    (hst : ds.img_list = Stored.pyList xs) (hi : i < xs.length) :
    raw_sample fs ds (i : Int) =
      (if ds.data_is_npy_alike then
        (match xs.get ⟨i, hi⟩ with
          | ImgElem.arr a => Except.ok a
          | _ => Except.error .typeError)
      else
        (match xs.get ⟨i, hi⟩ with
          | ImgElem.path p => load_img fs p
          | _ => Except.error .typeError)) := by
  simp only [raw_sample, hst, pyIndex_nat xs i hi, Except.bind, bind, pure, Except.pure]

/-- Evaluation of raw_sample at a valid nonnegative index on preloaded 4D
array storage. -/
theorem raw_sample_ndarr (fs : FS) (ds : Dataset) (a : NDArray) (n : Nat)
    (rest : List Nat) (i : Nat) (hst : ds.img_list = Stored.ndarr a)
    (hsh : a.shape = n :: rest) (hi : i < n) (hnpy : ds.data_is_npy_alike = true) :
    raw_sample fs ds (i : Int) = .ok (ndSlice a i) := by
  simp only [raw_sample, hst, ndIndex_nat a n rest hsh i hi, Except.bind, bind,
    pure, Except.pure, hnpy, if_true]

/-- Evaluation of getitem once the raw sample resolved: apply preprocessing
and pair with the label when requested. -/
theorem getitem_of_raw (fs : FS) (ds : Dataset) (idx : Int) (raw : NDArray)
    (hraw : raw_sample fs ds idx = .ok raw) :
    getitem fs ds idx =
      (if ds.return_labels then
        (pyIndex ds.label_list idx).map
          (fun lab => GetResult.withLabel (ds.preproc_func raw) lab)
      else .ok (.single (ds.preproc_func raw))) := by
  simp only [getitem, hraw, Except.bind, bind]
  cases hr : ds.return_labels
  · simp [pure, Except.pure]
  · cases pyIndex ds.label_list idx <;> simp [Except.map, pure, Except.pure]

/-! ## C3: label backfill and the length invariant -/

/-- C3 (amended): when no label_source is supplied, construction synthesizes a
same-length list of nan sentinels, so len(labels) = len(samples), and get(i)
with return_labels set pairs every valid index with the nan sentinel. (The
unamended claim asserted the length equality for every constructible dataset;
a supplied label list is stored without any length check, see the
counterexample.) -/
theorem c3_label_backfill (fs : FS) (input : PyInput) (rl : Bool)
    (pf : Option (NDArray → NDArray)) (ds : Dataset) (n : Nat)
    (hds : PatchDataset_init fs input none rl pf = .ok ds)
    (hn : dslen ds = .ok n) :
    ds.label_list = List.replicate n Label.nan ∧
    ds.label_list.length = n ∧
    (rl = true → ∀ i : Nat, i < n → ∃ patch,
      getitem fs ds (i : Int) = .ok (.withLabel patch Label.nan)) := by
  cases input with
  | other =>
    rw [init_other_eq] at hds
    cases hds
  | list xs =>
    rw [init_list_eq] at hds
    cases hlb : listBranch fs xs with
    | error e =>
      rw [hlb] at hds
      cases hds
    | ok b =>
      rw [hlb] at hds
      have hds' : ds = set_preproc_func
          { img_list := Stored.pyList xs
            label_list := resolveLabels none xs.length
            data_is_npy_alike := b
            preproc_func := fun x => x
            return_labels := rl } pf := (Except.ok.inj hds).symm
      subst hds'
      have hxn : xs.length = n := by
        simp only [dslen, set_preproc_func, Except.ok.injEq] at hn
        exact hn
      subst hxn
      refine ⟨rfl, List.length_replicate _ _, ?_⟩
      intro hrl i hi
      subst hrl
      have hlabs : pyIndex (List.replicate xs.length Label.nan) (i : Int) = .ok Label.nan := by
        have hrl2 := pyIndex_nat (List.replicate xs.length Label.nan) i
          (by rw [List.length_replicate]; exact hi)
        rw [hrl2, List.get_replicate]
      rcases listBranch_ok_inv hlb with ⟨hp, hbf, hdec⟩ | ⟨hp, ha, hbt⟩
      · subst hbf
        obtain ⟨p, a, hep, hload⟩ := hdec (xs.get ⟨i, hi⟩) (List.get_mem xs i hi)
        simp only [List.get_eq_getElem] at hep
        have hrs : raw_sample fs (set_preproc_func
            { img_list := Stored.pyList xs
              label_list := resolveLabels none xs.length
              data_is_npy_alike := false
              preproc_func := fun x => x
              return_labels := true } pf) (i : Int) = .ok a := by
          rw [raw_sample_pyList fs _ xs i rfl hi]
          simp [set_preproc_func, hep, hload]
        have hg : getitem fs (set_preproc_func
            { img_list := Stored.pyList xs
              label_list := resolveLabels none xs.length
              data_is_npy_alike := false
              preproc_func := fun x => x
              return_labels := true } pf) (i : Int) =
            .ok (.withLabel ((set_preproc_func
              { img_list := Stored.pyList xs
                label_list := resolveLabels none xs.length
                data_is_npy_alike := false
                preproc_func := fun x => x
                return_labels := true } pf).preproc_func a) Label.nan) := by
          rw [getitem_of_raw fs _ (i : Int) a hrs]
          simp [set_preproc_func, resolveLabels, hlabs, Except.map]
        exact ⟨_, hg⟩
      · subst hbt
        have hxa := List.all_eq_true.mp ha (xs.get ⟨i, hi⟩) (List.get_mem xs i hi)
        rw [List.get_eq_getElem] at hxa
        cases hget : xs[i] with
        | path p => rw [hget] at hxa; cases hxa
        | other => rw [hget] at hxa; cases hxa
        | arr a =>
          have hrs : raw_sample fs (set_preproc_func
              { img_list := Stored.pyList xs
                label_list := resolveLabels none xs.length
                data_is_npy_alike := true
                preproc_func := fun x => x
                return_labels := true } pf) (i : Int) = .ok a := by
            rw [raw_sample_pyList fs _ xs i rfl hi]
            simp [set_preproc_func, hget]
          have hg : getitem fs (set_preproc_func
              { img_list := Stored.pyList xs
                label_list := resolveLabels none xs.length
                data_is_npy_alike := true
                preproc_func := fun x => x
                return_labels := true } pf) (i : Int) =
              .ok (.withLabel ((set_preproc_func
                { img_list := Stored.pyList xs
                  label_list := resolveLabels none xs.length
                  data_is_npy_alike := true
                  preproc_func := fun x => x
                  return_labels := true } pf).preproc_func a) Label.nan) := by
            rw [getitem_of_raw fs _ (i : Int) a hrs]
            simp [set_preproc_func, resolveLabels, hlabs, Except.map]
          exact ⟨_, hg⟩
  | ndarray a =>
    rw [init_ndarray_eq] at hds
    cases hab : arrayBranch a with
    | error e =>
      rw [hab] at hds
      cases hds
    | ok u =>
      rw [hab] at hds
      have hds' : ds = set_preproc_func
          { img_list := Stored.ndarr a
            label_list := resolveLabels none (a.shape.headD 0)
            data_is_npy_alike := true
            preproc_func := fun x => x
            return_labels := rl } pf := (Except.ok.inj hds).symm
      subst hds'
      obtain ⟨hdt, hlen4⟩ := arrayBranch_ok_inv hab
      obtain ⟨m, rest, hsh⟩ : ∃ m rest, a.shape = m :: rest := by
        cases hsx : a.shape with
        | nil => rw [hsx] at hlen4; simp at hlen4
        | cons x xs2 => exact ⟨x, xs2, rfl⟩
      have hhead : a.shape.headD 0 = m := by rw [hsh]; rfl
      have hmn : m = n := by
        simp only [dslen, set_preproc_func, hsh, Except.ok.injEq] at hn
        exact hn
      subst hmn
      refine ⟨?_, ?_, ?_⟩
      · show resolveLabels none (a.shape.headD 0) = List.replicate m Label.nan
        rw [hhead]
        rfl
      · show (List.replicate (a.shape.headD 0) Label.nan).length = m
        rw [hhead, List.length_replicate]
      · intro hrl i hi
        subst hrl
        have hlabs : pyIndex (List.replicate (a.shape.headD 0) Label.nan) (i : Int)
            = .ok Label.nan := by
          have hrl2 := pyIndex_nat (List.replicate (a.shape.headD 0) Label.nan) i
            (by rw [List.length_replicate, hhead]; exact hi)
          rw [hrl2, List.get_replicate]
        have hrs : raw_sample fs (set_preproc_func
            { img_list := Stored.ndarr a
              label_list := resolveLabels none (a.shape.headD 0)
              data_is_npy_alike := true
              preproc_func := fun x => x
              return_labels := true } pf) (i : Int) = .ok (ndSlice a i) :=
          raw_sample_ndarr fs _ a m rest i rfl hsh hi rfl
        have hg : getitem fs (set_preproc_func
            { img_list := Stored.ndarr a
              label_list := resolveLabels none (a.shape.headD 0)
              data_is_npy_alike := true
              preproc_func := fun x => x
              return_labels := true } pf) (i : Int) =
            .ok (.withLabel ((set_preproc_func
              { img_list := Stored.ndarr a
                label_list := resolveLabels none (a.shape.headD 0)
                data_is_npy_alike := true
                preproc_func := fun x => x
                return_labels := true } pf).preproc_func (ndSlice a i)) Label.nan) := by
          rw [getitem_of_raw fs _ (i : Int) (ndSlice a i) hrs]
          simp only [List.headD_eq_head?_getD] at hlabs
          simp [set_preproc_func, resolveLabels, hlabs, Except.map]
        exact ⟨_, hg⟩

/-- Counterexample for C3 as stated: a dataset constructed from two samples
with a supplied one-element label list stores a label collection of length 1
against a sample collection of length 2. -/
theorem c3_counterexample :
    (PatchDataset_init fsEx (.list [ImgElem.arr arrA, ImgElem.arr arrB])
        (some [Label.val 7]) false none).map
      (fun ds => (ds.label_list.length, dslen ds)) = .ok (1, .ok 2) := by
  rfl

/-- Witness for C3: the no-label construction over the 4D stack arr4 yields
nan labels of length 2 and get(0) returns a nan-labelled sample. -/
theorem c3_witness :
    (PatchDataset_init fsEx (.ndarray arr4) none true none).map
        (fun ds => ds.label_list) = .ok [Label.nan, Label.nan] ∧
    getitem fsEx (set_preproc_func
      { img_list := Stored.ndarr arr4
        label_list := List.replicate 2 Label.nan
        data_is_npy_alike := true
        preproc_func := fun x => x
        return_labels := true } none) ((0 : Nat) : Int) =
      .ok (.withLabel (ndSlice arr4 0) Label.nan) := by
  constructor
  · rfl
  · obtain ⟨patch, hp⟩ := (c3_label_backfill fsEx (.ndarray arr4) true none
      (set_preproc_func
        { img_list := Stored.ndarr arr4
          label_list := List.replicate 2 Label.nan
          data_is_npy_alike := true
          preproc_func := fun x => x
          return_labels := true } none) 2 rfl rfl).2.2 rfl 0 (by decide)
    have hdirect : getitem fsEx (set_preproc_func
        { img_list := Stored.ndarr arr4
          label_list := List.replicate 2 Label.nan
          data_is_npy_alike := true
          preproc_func := fun x => x
          return_labels := true } none) ((0 : Nat) : Int) =
        .ok (.withLabel (ndSlice arr4 0) Label.nan) := by rfl
    have hp0 := hp
    rw [hdirect] at hp
    have h2 := Except.ok.inj hp
    simp only [GetResult.withLabel.injEq] at h2
    rw [h2.1]
    exact hp0

/-! ## C1: get resolves, preprocesses, and optionally pairs with the label -/

/-- C1: for every dataset PatchDataset constructs (list of paths, list of
in-memory arrays, or a single 4D array, with supplied or synthesized labels
of matching length), get(i) at a valid index resolves the raw sample --
decoding the stored path with load_img in path-referenced mode, and taking
the stored array (respectively the i-th leading-axis slice) directly, for ANY
filesystem, in preloaded mode -- applies the stored preprocessing function,
and returns the processed sample paired with labels[i] exactly when
return_labels is set, else the processed sample alone. -/
theorem c1_get_resolves (fs : FS) :
    (∀ (xs : List ImgElem) (lab : Option (List Label)) (rl : Bool)
        (pf : Option (NDArray → NDArray)) (ds : Dataset),
      PatchDataset_init fs (.list xs) lab rl pf = .ok ds →
      ∀ (hlab : ds.label_list.length = xs.length) (i : Nat) (hi : i < xs.length),
        (∀ p, xs.get ⟨i, hi⟩ = ImgElem.path p →
          getitem fs ds (i : Int) =
            (load_img fs p).map (fun raw =>
              if rl then GetResult.withLabel (ds.preproc_func raw)
                  (ds.label_list.get ⟨i, by omega⟩)
              else GetResult.single (ds.preproc_func raw))) ∧
        (∀ a, xs.get ⟨i, hi⟩ = ImgElem.arr a →
          ∀ gfs : FS,
            getitem gfs ds (i : Int) =
              .ok (if rl then GetResult.withLabel (ds.preproc_func a)
                  (ds.label_list.get ⟨i, by omega⟩)
                else GetResult.single (ds.preproc_func a)))) ∧
    (∀ (a : NDArray) (lab : Option (List Label)) (rl : Bool)
        (pf : Option (NDArray → NDArray)) (ds : Dataset),
      PatchDataset_init fs (.ndarray a) lab rl pf = .ok ds →
      ∀ (hlab : ds.label_list.length = a.shape.headD 0) (i : Nat)
        (hi : i < a.shape.headD 0) (gfs : FS),
        getitem gfs ds (i : Int) =
          .ok (if rl then GetResult.withLabel (ds.preproc_func (ndSlice a i))
              (ds.label_list.get ⟨i, by omega⟩)
            else GetResult.single (ds.preproc_func (ndSlice a i)))) := by
  constructor
  · intro xs lab rl pf ds hds hlab i hi
    rw [init_list_eq] at hds
    cases hlb : listBranch fs xs with
    | error e =>
      rw [hlb] at hds
      cases hds
    | ok b =>
      rw [hlb] at hds
      have hds' : ds = set_preproc_func
          { img_list := Stored.pyList xs
            label_list := resolveLabels lab xs.length
            data_is_npy_alike := b
            preproc_func := fun x => x
            return_labels := rl } pf := (Except.ok.inj hds).symm
      subst hds'
      simp only [set_preproc_func] at hlab
      have hilab : i < (resolveLabels lab xs.length).length := by omega
      have hpi : pyIndex (resolveLabels lab xs.length) (i : Int) =
          .ok ((resolveLabels lab xs.length).get ⟨i, hilab⟩) :=
        pyIndex_nat _ i hilab
      constructor
      · intro p hep
        have hbf : b = false := by
          rcases listBranch_ok_inv hlb with ⟨_, hb, _⟩ | ⟨_, hall, _⟩
          · exact hb
          · have hmem := List.all_eq_true.mp hall _ (List.get_mem xs i hi)
            rw [hep] at hmem
            cases hmem
        subst hbf
        have hrsEq : raw_sample fs (set_preproc_func
            { img_list := Stored.pyList xs
              label_list := resolveLabels lab xs.length
              data_is_npy_alike := false
              preproc_func := fun x => x
              return_labels := rl } pf) (i : Int) = load_img fs p := by
          rw [raw_sample_pyList fs _ xs i rfl hi, hep]
          rfl
        cases hload : load_img fs p with
        | error e =>
          rw [hload] at hrsEq
          simp only [getitem, hrsEq, Except.bind, bind, Except.map]
        | ok araw =>
          rw [hload] at hrsEq
          rw [getitem_of_raw fs _ (i : Int) araw hrsEq]
          cases rl with
          | false => simp [set_preproc_func, Except.map]
          | true => simp [set_preproc_func, hpi, Except.map]
      · intro a ha gfs
        have hbt : b = true := by
          rcases listBranch_ok_inv hlb with ⟨hall, _, _⟩ | ⟨_, _, hb⟩
          · have hmem := List.all_eq_true.mp hall _ (List.get_mem xs i hi)
            rw [ha] at hmem
            cases hmem
          · exact hb
        subst hbt
        have hrs : raw_sample gfs (set_preproc_func
            { img_list := Stored.pyList xs
              label_list := resolveLabels lab xs.length
              data_is_npy_alike := true
              preproc_func := fun x => x
              return_labels := rl } pf) (i : Int) = .ok a := by
          rw [raw_sample_pyList gfs _ xs i rfl hi, ha]
          rfl
        rw [getitem_of_raw gfs _ (i : Int) a hrs]
        cases rl with
        | false => simp [set_preproc_func, Except.map]
        | true => simp [set_preproc_func, hpi, Except.map]
  · intro a lab rl pf ds hds hlab i hi gfs
    rw [init_ndarray_eq] at hds
    cases hab : arrayBranch a with
    | error e =>
      rw [hab] at hds
      cases hds
    | ok u =>
      rw [hab] at hds
      have hds' : ds = set_preproc_func
          { img_list := Stored.ndarr a
            label_list := resolveLabels lab (a.shape.headD 0)
            data_is_npy_alike := true
            preproc_func := fun x => x
            return_labels := rl } pf := (Except.ok.inj hds).symm
      subst hds'
      simp only [set_preproc_func] at hlab
      obtain ⟨hdt, hlen4⟩ := arrayBranch_ok_inv hab
      obtain ⟨m, rest, hsh⟩ : ∃ m rest, a.shape = m :: rest := by
        cases hsx : a.shape with
        | nil => rw [hsx] at hlen4; simp at hlen4
        | cons x xs2 => exact ⟨x, xs2, rfl⟩
      have hhead : a.shape.headD 0 = m := by rw [hsh]; rfl
      have hilab : i < (resolveLabels lab (a.shape.headD 0)).length := by omega
      have hpi : pyIndex (resolveLabels lab (a.shape.headD 0)) (i : Int) =
          .ok ((resolveLabels lab (a.shape.headD 0)).get ⟨i, hilab⟩) :=
        pyIndex_nat _ i hilab
      have hrs : raw_sample gfs (set_preproc_func
          { img_list := Stored.ndarr a
            label_list := resolveLabels lab (a.shape.headD 0)
            data_is_npy_alike := true
            preproc_func := fun x => x
            return_labels := rl } pf) (i : Int) = .ok (ndSlice a i) :=
        raw_sample_ndarr gfs _ a m rest i rfl hsh (by omega) rfl
      rw [getitem_of_raw gfs _ (i : Int) (ndSlice a i) hrs]
      cases rl with
      | false => simp [set_preproc_func, Except.map]
      | true =>
        simp only [List.headD_eq_head?_getD] at hpi
        simp [set_preproc_func, hpi, Except.map]

/-- Witness for C1 covering all three constructed families: on the concrete
path dataset get(0) decodes a.png and pairs it with label 0; on the concrete
preloaded array-list dataset (synthesized nan labels, return_labels off) the
empty filesystem still yields the second stored array directly; on the
concrete preloaded 4D stack the empty filesystem yields the second slice
paired with label 4. -/
theorem c1_witness :
    getitem fsEx dsPaths ((0 : Nat) : Int) = .ok (.withLabel arrA (Label.val 0)) ∧
    getitem fsEmpty dsArrs ((1 : Nat) : Int) = .ok (.single arrB) ∧
    getitem fsEmpty dsArr4 ((1 : Nat) : Int) =
      .ok (.withLabel (ndSlice arr4 1) (Label.val 4)) := by
  refine ⟨?_, ?_, ?_⟩
  · have h := ((c1_get_resolves fsEx).1 [ImgElem.path "a.png", ImgElem.path "b.png"]
      (some [Label.val 0, Label.val 1]) true none dsPaths rfl rfl 0 (by decide)).1
      "a.png" rfl
    rw [h]
    rfl
  · have h := ((c1_get_resolves fsEx).1 [ImgElem.arr arrA, ImgElem.arr arrB]
      none false none dsArrs rfl rfl 1 (by decide)).2 arrB rfl fsEmpty
    rw [h]
    rfl
  · have h := (c1_get_resolves fsEx).2 arr4 (some [Label.val 3, Label.val 4]) true none
      dsArr4 rfl rfl 1 (by decide) fsEmpty
    rw [h]
    rfl

/-! ## C9: Kather categories, missing or empty directories -/

/-- Membership in an insertion step. -/
theorem mem_insertAsc {α : Type} (lt : α → α → Bool) (x y : α) :
    ∀ (l : List α), y ∈ insertAsc lt x l ↔ y = x ∨ y ∈ l := by
  intro l
  induction l with
  | nil => simp [insertAsc]
  | cons z zs ih =>
    unfold insertAsc
    by_cases h : lt x z = true
    · simp [h]
    · simp [h, ih]
      tauto

/-- Membership is preserved through the insertion-sort fold. -/
theorem mem_pySort_aux {α : Type} (lt : α → α → Bool) (y : α) :
    ∀ (xs acc : List α),
      (y ∈ xs.foldl (fun acc x => insertAsc lt x acc) acc ↔ y ∈ acc ∨ y ∈ xs) := by
  intro xs
  induction xs with
  | nil => simp
  | cons x t ih =>
    intro acc
    simp only [List.foldl_cons]
    rw [ih (insertAsc lt x acc), mem_insertAsc]
    simp [List.mem_cons]
    tauto

/-- Sorting does not change membership. -/
theorem mem_pySort {α : Type} (lt : α → α → Bool) (y : α) (xs : List α) :
    y ∈ pySort lt xs ↔ y ∈ xs := by
  unfold pySort
  rw [mem_pySort_aux]
  simp

/-- C9 (amended): with an existing save directory, every category whose
directory is missing or empty contributes zero (path, label) entries and no
error is raised for it; PROVIDED at least one category contributes an entry,
construction completes with the concatenation of the per-category sorted
lists in fixed category order, each entry labelled with its category
position, and the eight category codes stored as the class taxonomy. (When
every category is empty the final unpacking fails, see the counterexample.) -/
theorem c9_kather_categories (glob : String → List String) (sdp : String) (rl : Bool)
    (pf : Option (NDArray → NDArray)) (hne : katherAll glob sdp ≠ []) :
    KatherPatchDataset_init glob sdp true rl pf =
      .ok (set_preproc_func
        { img_list := Stored.pyList ((katherAll glob sdp).map (fun r => ImgElem.path r.1))
          label_list := (katherAll glob sdp).map (fun r => Label.val (r.2 : Int))
          data_is_npy_alike := false
          preproc_func := fun x => x
          return_labels := rl } pf, label_code_list) ∧
    (∀ p ∈ label_code_list.enum, glob (sdp ++ "/" ++ p.2 ++ "/") = [] →
      katherCat glob sdp p.1 p.2 = []) ∧
    (∀ p ∈ label_code_list.enum, ∀ r ∈ katherCat glob sdp p.1 p.2, r.2 = p.1) := by
  refine ⟨?_, ?_, ?_⟩
  · cases hall : katherAll glob sdp with
    | nil => exact absurd hall hne
    | cons q rest =>
      unfold KatherPatchDataset_init
      rw [hall]
      rfl
  · intro p _ hempty
    unfold katherCat
    rw [hempty]
    rfl
  · intro p _ r hr
    unfold katherCat at hr
    have hm := (mem_pySort pairLt r _).mp hr
    obtain ⟨v, _, rfl⟩ := List.mem_map.mp hm
    rfl

/-- Counterexample for C9 as stated: when every one of the eight category
directories is missing or empty, construction does not complete; unpacking
the empty (path, label) sequence raises a ValueError. -/
theorem c9_counterexample :
    KatherPatchDataset_init (fun _ => []) "K" true false none =
      .error (.valueError "not enough values to unpack (expected 2, got 0)") := by
  rfl

/-- Witness for C9 on a concrete directory tree with files only under
01_TUMOR (out of order) and 03_COMPLEX: construction completes, the paths
concatenate sorted per category in category order, and the empty 02_STROMA
category contributes zero entries. -/
theorem c9_witness :
    KatherPatchDataset_init globEx "K" true false none =
      .ok (set_preproc_func
        { img_list := Stored.pyList ((katherAll globEx "K").map (fun r => ImgElem.path r.1))
          label_list := (katherAll globEx "K").map (fun r => Label.val (r.2 : Int))
          data_is_npy_alike := false
          preproc_func := fun x => x
          return_labels := false } none, label_code_list) ∧
    (katherAll globEx "K").map (fun r => ImgElem.path r.1) =
      [ImgElem.path "K/01_TUMOR/a.tif", ImgElem.path "K/01_TUMOR/b.tif",
        ImgElem.path "K/03_COMPLEX/z.tif"] ∧
    katherCat globEx "K" 1 "02_STROMA" = [] := by
  refine ⟨(c9_kather_categories globEx "K" false none (by decide)).1, by rfl,
    (c9_kather_categories globEx "K" false none (by decide)).2.1 (1, "02_STROMA")
      (by decide) (by decide)⟩
